import Mathlib

/-!
# PerpsX position-and-ledger engine: a shallow embedding

This file embeds the trading engine of the PerpsX demo DEX (the `useAppState`
hook of `App.jsx`: per-tick revaluation, `openPosition`, `closePosition`,
`closeAllPositions`) and proves/refutes the specification claims about it.

Numbers are modelled as rationals (`ℚ`).  JavaScript truthiness of the
nullable numeric fields (`takeProfit`, `stopLoss`, prices) is modelled
explicitly by the `JVal` type: `null`, `nan` (the result of `parseFloat` on a
non-numeric string) and ordinary numbers, where `null`, `nan` and `0` are
falsy.  String-valued input fields (the "advanced settings" text boxes) are
modelled by `JStr`: the empty string, a non-numeric string, or a numeric
string, with the empty string falsy.
-/

namespace PerpsX

/-- Trading direction of a position: `'LONG' | 'SHORT'`. -/
inductive Direction where
  | LONG
  | SHORT
deriving DecidableEq, Repr

/-- Markets supported by the app (`prices` has keys BTC, ETH, SOL). -/
inductive Market where
  | BTC
  | ETH
  | SOL
deriving DecidableEq, Repr

/-- Risk modes of the UI; `leverageMap` maps them to leverage. -/
inductive RiskMode where
  | SAFE
  | BALANCED
  | DEGENERATE
deriving DecidableEq, Repr

/-- The risk-mode table: `const leverageMap = { SAFE: 2, BALANCED: 5, DEGENERATE: 10 }`. -/
def leverageMap : RiskMode → ℚ
  | .SAFE => 2
  | .BALANCED => 5
  | .DEGENERATE => 10

/-- Order type of the advanced settings: `'MARKET' | 'LIMIT'`. -/
inductive OrderType where
  | MARKET
  | LIMIT
deriving DecidableEq, Repr

/-- A JavaScript value sitting in a nullable numeric field: `null`, `NaN`, or
a number. -/
inductive JVal where
  | null
  | nan
  | num (q : ℚ)
deriving DecidableEq, Repr

/-- JS truthiness of a `JVal`: `null`, `NaN` and `0` are falsy. -/
def JVal.truthy : JVal → Bool
  | .null => false
  | .nan => false
  | .num q => q != 0

/-- Numeric reading of a `JVal`; only ever used behind a truthiness guard, so
the `null`/`nan` value is immaterial (`0` is the JS coercion of `null`). -/
def JVal.toQ : JVal → ℚ
  | .num q => q
  | _ => 0

/-- A JavaScript string sitting in an input field, abstracted to the three
cases the engine distinguishes: the empty string, a string `parseFloat`
cannot parse, and a string parsing to the rational `q`. -/
inductive JStr where
  | empty
  | junk
  | numStr (q : ℚ)
deriving DecidableEq, Repr

/-- JS truthiness of a string: only the empty string is falsy. -/
def JStr.truthy : JStr → Bool
  | .empty => false
  | _ => true

/-- JS `parseFloat`: the empty and non-numeric strings give `NaN`; a numeric
string gives its number. -/
def parseFloat : JStr → JVal
  | .empty => .nan
  | .junk => .nan
  | .numStr q => .num q

/-- The `advancedSettings` object. -/
structure AdvancedSettings where
  orderType : OrderType
  limitPrice : JStr
  customLeverage : JStr
  takeProfit : JStr
  stopLoss : JStr
deriving DecidableEq, Repr

/-- Terminal markers of a position.  The source uses three boolean flags
(`closedByTP`, `closedBySL`, `liquidated`), at most one of which is ever set;
we collapse them into one status field. -/
inductive Status where
  | OPEN
  | CLOSED_BY_TP
  | CLOSED_BY_SL
  | LIQUIDATED
deriving DecidableEq, Repr

/-- A position object as built by `openPosition` and mutated by the per-tick
effect.  Informational fields (`riskMode` label, `openedAt`) are omitted. -/
structure Position where
  id : ℕ
  market : Market
  entryPrice : ℚ
  direction : Direction
  /-- `size`: the displayed notional size, `riskAmount * leverage`. -/
  size : ℚ
  riskAmount : ℚ
  leverage : ℚ
  initialMargin : ℚ
  maintenanceMargin : ℚ
  marginUsed : ℚ
  liquidationPrice : ℚ
  unrealizedPnL : ℚ
  takeProfit : JVal
  stopLoss : JVal
  status : Status
deriving DecidableEq, Repr

/-- Engine state: the account balance and the open-position list. -/
structure EngineState where
  balance : ℚ
  positions : List Position
deriving DecidableEq, Repr

/-- The direction multiplier: `const multiplier = pos.direction === 'LONG' ? 1 : -1`. -/
def dirMult : Direction → ℚ
  | .LONG => 1
  | .SHORT => -1

/-- The per-tick PnL recomputation:
`(currentPrice - pos.entryPrice) / pos.entryPrice * pos.size * multiplier`. -/
def posPnl (currentPrice : ℚ) (pos : Position) : ℚ :=
  ((currentPrice - pos.entryPrice) / pos.entryPrice) * pos.size * dirMult pos.direction

/-- The take-profit trigger: `pos.takeProfit` truthy and
(`LONG` and `currentPrice >= pos.takeProfit`) or
(`SHORT` and `currentPrice <= pos.takeProfit`). -/
def tpFired (currentPrice : ℚ) (pos : Position) : Bool :=
  pos.takeProfit.truthy &&
    (match pos.direction with
     | .LONG => decide (pos.takeProfit.toQ ≤ currentPrice)
     | .SHORT => decide (currentPrice ≤ pos.takeProfit.toQ))

/-- The stop-loss trigger: `pos.stopLoss` truthy and
(`LONG` and `currentPrice <= pos.stopLoss`) or
(`SHORT` and `currentPrice >= pos.stopLoss`). -/
def slFired (currentPrice : ℚ) (pos : Position) : Bool :=
  pos.stopLoss.truthy &&
    (match pos.direction with
     | .LONG => decide (currentPrice ≤ pos.stopLoss.toQ)
     | .SHORT => decide (pos.stopLoss.toQ ≤ currentPrice))

/-- The effective risk: `const riskAmount = pos.riskAmount || pos.initialMargin` — JS `||` falls
through on the falsy value `0`. -/
def effRisk (pos : Position) : ℚ :=
  if pos.riskAmount = 0 then pos.initialMargin else pos.riskAmount

/-- One position's step of the per-tick revaluation effect: recompute the
PnL, then check take profit, then stop loss, then liquidation (clamping the
liquidation loss to the risk amount), else stay open with the new PnL. -/
def evalPosition (currentPrice : ℚ) (pos : Position) : Position :=
  let pnl := posPnl currentPrice pos
  if tpFired currentPrice pos then
    { pos with unrealizedPnL := pnl, status := .CLOSED_BY_TP }
  else if slFired currentPrice pos then
    { pos with unrealizedPnL := pnl, status := .CLOSED_BY_SL }
  else if pnl ≤ -(effRisk pos) then
    { pos with unrealizedPnL := -(effRisk pos), status := .LIQUIDATED }
  else
    { pos with unrealizedPnL := pnl, status := .OPEN }

/-- The settlement credit of the tick effect:
`closedPositions.reduce((sum, p) => sum + p.initialMargin + p.unrealizedPnL, 0)`
(the source's liquidated and TP/SL branches compute the same expression). -/
def settleReturn (closed : List Position) : ℚ :=
  closed.foldl (fun sum p => sum + p.initialMargin + p.unrealizedPnL) 0

/-- The whole per-tick effect: guarded on a nonempty book and a truthy BTC
price, it revalues every position at its market's price, credits the
settlement total of the closed ones to the balance, and keeps only the
still-open ones.  (The source only calls `setBalance` when some position
closed; crediting `0` otherwise is the same state.) -/
def tick (prices : Market → JVal) (st : EngineState) : EngineState :=
  if st.positions ≠ [] ∧ (prices Market.BTC).truthy then
    let updatedPositions := st.positions.map
      (fun pos => evalPosition (prices pos.market).toQ pos)
    let closedPositions := updatedPositions.filter (fun p => p.status ≠ .OPEN)
    { balance := st.balance + settleReturn closedPositions,
      positions := updatedPositions.filter (fun p => p.status = .OPEN) }
  else st

/-- The position object literal of `openPosition` (identical in the limit and
market branches up to the entry price). -/
def mkPosition (now : ℕ) (selectedMarket : Market) (entryPrice : ℚ)
    (direction : Direction) (riskAmount leverage : ℚ)
    (adv : AdvancedSettings) : Position :=
  { id := now
    market := selectedMarket
    entryPrice := entryPrice
    direction := direction
    size := riskAmount * leverage
    riskAmount := riskAmount
    leverage := leverage
    initialMargin := riskAmount
    maintenanceMargin := 0
    marginUsed := riskAmount
    liquidationPrice :=
      match direction with
      | .LONG => entryPrice * (1 - 1 / leverage)
      | .SHORT => entryPrice * (1 + 1 / leverage)
    unrealizedPnL := 0
    takeProfit := if adv.takeProfit.truthy then parseFloat adv.takeProfit else .null
    stopLoss := if adv.stopLoss.truthy then parseFloat adv.stopLoss else .null
    status := .OPEN }

/-- The leverage resolution of `openPosition`: the parsed custom leverage
when advanced mode is on and the field is a nonempty string, else the risk
mode's leverage. -/
def resolveLeverage (showAdvanced : Bool) (adv : AdvancedSettings)
    (riskMode : RiskMode) : ℚ :=
  if showAdvanced && adv.customLeverage.truthy then
    (parseFloat adv.customLeverage).toQ
  else leverageMap riskMode

/-- The entry price of `openPosition`: the parsed limit price for a limit
order with a nonempty limit field (an immediate synthetic fill), else the
current market price. -/
def entryFor (adv : AdvancedSettings) (currentPrice : ℚ) : ℚ :=
  if adv.orderType = OrderType.LIMIT ∧ adv.limitPrice.truthy then
    (parseFloat adv.limitPrice).toQ
  else currentPrice

/-- The command `openPosition`: reject when the selected market's price is falsy; resolve
the leverage; reject when `balance < positionSize / leverage`; otherwise
build the position, deduct the margin (`= positionSize`, the risk amount) and
append the position. -/
def openPosition (now : ℕ) (prices : Market → JVal) (selectedMarket : Market)
    (direction : Direction) (positionSize : ℚ) (riskMode : RiskMode)
    (showAdvanced : Bool) (adv : AdvancedSettings)
    (st : EngineState) : EngineState :=
  let currentPrice := prices selectedMarket
  if ¬ currentPrice.truthy then st
  else
    let leverage := resolveLeverage showAdvanced adv riskMode
    let initialMargin := positionSize / leverage
    if st.balance < initialMargin then st
    else
      let newPosition := mkPosition now selectedMarket (entryFor adv currentPrice.toQ)
        direction positionSize leverage adv
      { balance := st.balance - positionSize
        positions := st.positions ++ [newPosition] }

/-- The command `closePosition(positionId)`: no-op when the id is not found; otherwise
credit `initialMargin + unrealizedPnL` and remove every position with that
id. -/
def closePosition (positionId : ℕ) (st : EngineState) : EngineState :=
  match st.positions.find? (fun p => p.id = positionId) with
  | none => st
  | some position =>
    { balance := st.balance + position.initialMargin + position.unrealizedPnL
      positions := st.positions.filter (fun p => p.id ≠ positionId) }

/-- The command `closeAllPositions()`: credit the sum of all margins plus the sum of all
unrealized PnLs and clear the book. -/
def closeAllPositions (st : EngineState) : EngineState :=
  { balance := st.balance
      + (st.positions.map (fun pos => pos.initialMargin)).sum
      + (st.positions.map (fun pos => pos.unrealizedPnL)).sum
    positions := [] }

/-- Closing a list of position ids one at a time, in order. -/
def closeEach (order : List ℕ) (st : EngineState) : EngineState :=
  order.foldl (fun s positionId => closePosition positionId s) st

/-! ## Helper lemmas -/

/-- On success (truthy price, sufficient balance for the check), `openPosition`
deducts the risk amount and appends the freshly built position. -/
lemma openPosition_success (now : ℕ) (prices : Market → JVal)
    (selectedMarket : Market) (direction : Direction) (positionSize : ℚ)
    (riskMode : RiskMode) (showAdvanced : Bool) (adv : AdvancedSettings)
    (st : EngineState)
    (hprice : (prices selectedMarket).truthy = true)
    (hbal : ¬ st.balance < positionSize / resolveLeverage showAdvanced adv riskMode) :
    openPosition now prices selectedMarket direction positionSize riskMode
        showAdvanced adv st =
      { balance := st.balance - positionSize
        positions := st.positions ++
          [mkPosition now selectedMarket (entryFor adv (prices selectedMarket).toQ)
            direction positionSize (resolveLeverage showAdvanced adv riskMode) adv] } := by
  simp [openPosition, hprice, hbal]

/-- On failure (falsy price, or balance below the checked margin),
`openPosition` leaves the state unchanged. -/
lemma openPosition_failure (now : ℕ) (prices : Market → JVal)
    (selectedMarket : Market) (direction : Direction) (positionSize : ℚ)
    (riskMode : RiskMode) (showAdvanced : Bool) (adv : AdvancedSettings)
    (st : EngineState)
    (h : (prices selectedMarket).truthy = false ∨
      st.balance < positionSize / resolveLeverage showAdvanced adv riskMode) :
    openPosition now prices selectedMarket direction positionSize riskMode
        showAdvanced adv st = st := by
  rcases h with h | h
  · simp [openPosition, h]
  · by_cases hp : (prices selectedMarket).truthy = true
    · simp [openPosition, hp, h]
    · simp [openPosition, Bool.eq_false_iff.2 hp]

/-- The step `evalPosition` only updates `unrealizedPnL` and `status`: all other
fields go through unchanged. -/
lemma evalPosition_fields (currentPrice : ℚ) (pos : Position) :
    (evalPosition currentPrice pos).id = pos.id ∧
    (evalPosition currentPrice pos).market = pos.market ∧
    (evalPosition currentPrice pos).entryPrice = pos.entryPrice ∧
    (evalPosition currentPrice pos).direction = pos.direction ∧
    (evalPosition currentPrice pos).size = pos.size ∧
    (evalPosition currentPrice pos).riskAmount = pos.riskAmount ∧
    (evalPosition currentPrice pos).leverage = pos.leverage ∧
    (evalPosition currentPrice pos).initialMargin = pos.initialMargin ∧
    (evalPosition currentPrice pos).liquidationPrice = pos.liquidationPrice := by
  unfold evalPosition
  dsimp only
  split_ifs <;> simp

/-- For every position the engine creates, `initialMargin = riskAmount`, and
then the `pos.riskAmount || pos.initialMargin` fallback is just
`riskAmount`. -/
lemma effRisk_eq (pos : Position) (h : pos.initialMargin = pos.riskAmount) :
    effRisk pos = pos.riskAmount := by
  unfold effRisk
  split <;> simp_all

/-- The tick marks a position `CLOSED_BY_TP` exactly when the take-profit
trigger fires. -/
lemma evalPosition_tp_iff (currentPrice : ℚ) (pos : Position) :
    (evalPosition currentPrice pos).status = Status.CLOSED_BY_TP ↔
      tpFired currentPrice pos = true := by
  unfold evalPosition
  dsimp only
  split_ifs <;> simp_all

/-- The tick marks a position `CLOSED_BY_SL` exactly when the stop-loss
trigger fires and the take-profit trigger did not. -/
lemma evalPosition_sl_iff (currentPrice : ℚ) (pos : Position) :
    (evalPosition currentPrice pos).status = Status.CLOSED_BY_SL ↔
      (tpFired currentPrice pos = false ∧ slFired currentPrice pos = true) := by
  unfold evalPosition
  dsimp only
  split_ifs <;> simp_all

/-- The tick marks a position `LIQUIDATED` exactly when neither user trigger
fires and the recomputed PnL is at or below the negated risk amount. -/
lemma evalPosition_liq_iff (currentPrice : ℚ) (pos : Position) :
    (evalPosition currentPrice pos).status = Status.LIQUIDATED ↔
      (tpFired currentPrice pos = false ∧ slFired currentPrice pos = false ∧
        posPnl currentPrice pos ≤ -(effRisk pos)) := by
  unfold evalPosition
  dsimp only
  split_ifs <;> simp_all

/-- The tick leaves a position `OPEN` exactly when no check fires. -/
lemma evalPosition_open_iff (currentPrice : ℚ) (pos : Position) :
    (evalPosition currentPrice pos).status = Status.OPEN ↔
      (tpFired currentPrice pos = false ∧ slFired currentPrice pos = false ∧
        ¬ posPnl currentPrice pos ≤ -(effRisk pos)) := by
  unfold evalPosition
  dsimp only
  split_ifs <;> simp_all

/-- The settled `unrealizedPnL` of a tick: the clamp `-riskAmount` in the
liquidation branch, the raw recomputed PnL in every other branch. -/
lemma evalPosition_pnl (currentPrice : ℚ) (pos : Position) :
    (evalPosition currentPrice pos).unrealizedPnL =
      if (evalPosition currentPrice pos).status = Status.LIQUIDATED then
        -(effRisk pos)
      else posPnl currentPrice pos := by
  unfold evalPosition
  dsimp only
  split_ifs <;> simp_all

/-! ## Fixtures for the concrete witnesses and counterexamples -/

/-- Advanced settings of a plain market order with every text field empty. -/
def advMarket : AdvancedSettings :=
  { orderType := .MARKET, limitPrice := .empty, customLeverage := .empty
    takeProfit := .empty, stopLoss := .empty }

/-- A price feed quoting 95000 on every market. -/
def feed95000 : Market → JVal := fun _ => JVal.num 95000

/-- The spec's §8 scenario: LONG BTC, entry 95000, risk 50, leverage 5. -/
def posScenario : Position := mkPosition 0 Market.BTC 95000 Direction.LONG 50 5 advMarket

/-- A LONG position, entry 100, leverage 2, risk 50 (notional 100), with a
stop loss at 40 — strictly beyond the liquidation price 50. -/
def posDeepSL : Position :=
  mkPosition 0 Market.BTC 100 Direction.LONG 50 2
    { orderType := .MARKET, limitPrice := .empty, customLeverage := .empty
      takeProfit := .empty, stopLoss := .numStr 40 }

/-! ## The claims -/

/-- C1: every position appended by `openPosition` carries
`liquidationPrice = entryPrice * (1 - 1/leverage)` when LONG and
`entryPrice * (1 + 1/leverage)` when SHORT, and the stored liquidation price
is independent of the risk amount: two position objects built with the same
entry, direction and leverage but different risk amounts carry the same
liquidation price. -/
theorem C1_liquidation_price_at_open
    (now : ℕ) (prices : Market → JVal) (mkt : Market) (dir : Direction)
    (r₁ r₂ e L : ℚ) (riskMode : RiskMode) (showAdv : Bool)
    (adv : AdvancedSettings) (st : EngineState) (p : Position)
    (hr₁ : 0 < r₁) (hr₂ : 0 < r₂) (he : 0 < e) (hL : 0 < L)
    (hmem : p ∈ (openPosition now prices mkt dir r₁ riskMode showAdv adv st).positions)
    (hnew : p ∉ st.positions) :
    ((p.direction = Direction.LONG →
        p.liquidationPrice = p.entryPrice * (1 - 1 / p.leverage)) ∧
      (p.direction = Direction.SHORT →
        p.liquidationPrice = p.entryPrice * (1 + 1 / p.leverage))) ∧
    (mkPosition now mkt e dir r₁ L adv).liquidationPrice
      = (mkPosition now mkt e dir r₂ L adv).liquidationPrice := by
  constructor
  · by_cases hp : (prices mkt).truthy = true
    · by_cases hb : st.balance < r₁ / resolveLeverage showAdv adv riskMode
      · rw [openPosition_failure now prices mkt dir r₁ riskMode showAdv adv st
          (Or.inr hb)] at hmem
        exact absurd hmem hnew
      · rw [openPosition_success now prices mkt dir r₁ riskMode showAdv adv st hp hb]
          at hmem
        rw [List.mem_append] at hmem
        rcases hmem with h | h
        · exact absurd h hnew
        · rw [List.mem_singleton] at h
          subst h
          cases dir <;> simp [mkPosition]
    · rw [openPosition_failure now prices mkt dir r₁ riskMode showAdv adv st
        (Or.inl (Bool.eq_false_iff.2 hp))] at hmem
      exact absurd hmem hnew
  · cases dir <;> simp [mkPosition]

/-- Witness for C1: the spec's scenario — LONG BTC at entry 95000 with
leverage 5 gives liquidation price 76000 = 95000 * (1 - 1/5), and replacing
the risk amount 50 by 80 does not move it. -/
theorem C1_witness :
    (posScenario.direction = Direction.LONG →
      posScenario.liquidationPrice = posScenario.entryPrice * (1 - 1 / posScenario.leverage)) ∧
    (posScenario.direction = Direction.SHORT →
      posScenario.liquidationPrice = posScenario.entryPrice * (1 + 1 / posScenario.leverage)) :=
  (C1_liquidation_price_at_open 0 feed95000 Market.BTC Direction.LONG
    50 80 95000 5 RiskMode.BALANCED false advMarket ⟨1000, []⟩ posScenario
    (by norm_num) (by norm_num) (by norm_num) (by norm_num)
    (by norm_num [openPosition, feed95000, advMarket, posScenario, mkPosition,
      resolveLeverage, entryFor, leverageMap, JVal.truthy, JVal.toQ, JStr.truthy,
      parseFloat])
    (by simp)).1

/-- C3: per-tick checks run take-profit first, then stop-loss, then
liquidation, and the first firing check determines the terminal status: the
position closes by TP exactly when the TP trigger fires (no matter what the
SL and liquidation conditions say), by SL exactly when SL fires and TP did
not, and liquidates exactly when neither fired and the loss reached the risk
amount. -/
theorem C3_trigger_priority (currentPrice : ℚ) (pos : Position) :
    ((evalPosition currentPrice pos).status = Status.CLOSED_BY_TP ↔
      tpFired currentPrice pos = true) ∧
    ((evalPosition currentPrice pos).status = Status.CLOSED_BY_SL ↔
      (tpFired currentPrice pos = false ∧ slFired currentPrice pos = true)) ∧
    ((evalPosition currentPrice pos).status = Status.LIQUIDATED ↔
      (tpFired currentPrice pos = false ∧ slFired currentPrice pos = false ∧
        posPnl currentPrice pos ≤ -(effRisk pos))) :=
  ⟨evalPosition_tp_iff currentPrice pos, evalPosition_sl_iff currentPrice pos,
    evalPosition_liq_iff currentPrice pos⟩

/-- Counterexample to C2 as stated: a LONG position (entry 100, leverage 2,
risk 50, stop loss 40) evaluated at price 20 settles by stop loss with
`unrealizedPnL = -80 < -50 = -riskAmount`, so it is not true that every
settled position has `unrealizedPnL ≥ -riskAmount`. -/
theorem C2_counterexample :
    (evalPosition 20 posDeepSL).status ≠ Status.OPEN ∧
    (evalPosition 20 posDeepSL).unrealizedPnL < -(evalPosition 20 posDeepSL).riskAmount := by
  have h : evalPosition 20 posDeepSL
      = { posDeepSL with unrealizedPnL := -80, status := .CLOSED_BY_SL } := by
    norm_num [evalPosition, posDeepSL, mkPosition, posPnl, tpFired, slFired, dirMult,
      JVal.truthy, JVal.toQ, JStr.truthy, parseFloat, effRisk]
  rw [h]
  refine ⟨by simp, ?_⟩
  norm_num [posDeepSL, mkPosition]

/-- C2 amended: when neither TP nor SL fires and the recomputed PnL is at or
below `-riskAmount`, the position liquidates with its settled PnL clamped to
exactly `-riskAmount`; every position that stays OPEN or LIQUIDATES satisfies
`unrealizedPnL ≥ -riskAmount` — but a position settled by TP or SL keeps the
unclamped PnL, which can lie below `-riskAmount` (see the counterexample).
The hypothesis `initialMargin = riskAmount` holds for every position the
engine creates. -/
theorem C2_liquidation_clamp (currentPrice : ℚ) (pos : Position)
    (hm : pos.initialMargin = pos.riskAmount) :
    (tpFired currentPrice pos = false → slFired currentPrice pos = false →
      posPnl currentPrice pos ≤ -pos.riskAmount →
      (evalPosition currentPrice pos).status = Status.LIQUIDATED ∧
        (evalPosition currentPrice pos).unrealizedPnL = -pos.riskAmount) ∧
    ((evalPosition currentPrice pos).status = Status.OPEN ∨
      (evalPosition currentPrice pos).status = Status.LIQUIDATED →
      (evalPosition currentPrice pos).unrealizedPnL ≥ -pos.riskAmount) := by
  have heff := effRisk_eq pos hm
  constructor
  · intro htp hsl hpnl
    have hstat : (evalPosition currentPrice pos).status = Status.LIQUIDATED :=
      (evalPosition_liq_iff currentPrice pos).2 ⟨htp, hsl, by rw [heff]; exact hpnl⟩
    refine ⟨hstat, ?_⟩
    rw [evalPosition_pnl, if_pos hstat, heff]
  · intro hstat
    rcases hstat with hopen | hliq
    · obtain ⟨-, -, hgt⟩ := (evalPosition_open_iff currentPrice pos).1 hopen
      rw [evalPosition_pnl, if_neg]
      · rw [heff] at hgt
        exact le_of_not_le hgt
      · rw [hopen]
        simp
    · rw [evalPosition_pnl, if_pos hliq, heff]

/-- Witness for C2 (amended): the spec's scenario position at price 76000
liquidates with settled PnL exactly -50, and the clamp bound holds. -/
theorem C2_witness :
    (evalPosition 76000 posScenario).status = Status.LIQUIDATED ∧
      (evalPosition 76000 posScenario).unrealizedPnL = -posScenario.riskAmount :=
  (C2_liquidation_clamp 76000 posScenario (by simp [posScenario, mkPosition])).1
    (by norm_num [tpFired, posScenario, mkPosition, advMarket, JVal.truthy, JStr.truthy])
    (by norm_num [slFired, posScenario, mkPosition, advMarket, JVal.truthy, JStr.truthy])
    (by norm_num [posPnl, posScenario, mkPosition, advMarket, dirMult])

/-- C4: the per-tick PnL is
`((currentPrice - entryPrice)/entryPrice) * notionalSize * directionMultiplier`
with `notionalSize = riskAmount * leverage` multiplied in exactly once (the
stored `size` already is the notional, so no further leverage factor), the
direction multiplier is +1 for LONG and -1 for SHORT, positions are created
with `size = riskAmount * leverage`, and ticks preserve `size`, `riskAmount`
and `leverage`, so the notional invariant holds for the lifetime. -/
theorem C4_pnl_formula (currentPrice : ℚ) (pos : Position)
    (now : ℕ) (mkt : Market) (e r L : ℚ) (dir : Direction) (adv : AdvancedSettings)
    (hsize : pos.size = pos.riskAmount * pos.leverage) :
    posPnl currentPrice pos =
      ((currentPrice - pos.entryPrice) / pos.entryPrice) *
        (pos.riskAmount * pos.leverage) * dirMult pos.direction ∧
    dirMult Direction.LONG = 1 ∧ dirMult Direction.SHORT = -1 ∧
    (mkPosition now mkt e dir r L adv).size
      = (mkPosition now mkt e dir r L adv).riskAmount
        * (mkPosition now mkt e dir r L adv).leverage ∧
    (evalPosition currentPrice pos).size = pos.size ∧
    (evalPosition currentPrice pos).riskAmount = pos.riskAmount ∧
    (evalPosition currentPrice pos).leverage = pos.leverage := by
  obtain ⟨-, -, -, -, h5, h6, h7, -, -⟩ := evalPosition_fields currentPrice pos
  exact ⟨by rw [posPnl, hsize], rfl, rfl, by simp [mkPosition], h5, h6, h7⟩

/-- Witness for C4: the spec's scenario at price 94000 — the PnL formula with
the notional 50 * 5 = 250. -/
theorem C4_witness :
    posPnl 94000 posScenario =
      ((94000 - posScenario.entryPrice) / posScenario.entryPrice) *
        (posScenario.riskAmount * posScenario.leverage) * dirMult posScenario.direction :=
  (C4_pnl_formula 94000 posScenario 0 Market.BTC 95000 50 5 Direction.LONG advMarket
    (by simp [posScenario, mkPosition])).1

/-- C5 fails on the code: with balance 20, risk amount 50 and leverage 5
(so the checked margin is 50 / 5 = 10 ≤ 20 but the deduction is 50),
`openPosition` succeeds and leaves the balance at -30 < 0, although the
margin-reserved policy deducts the full risk amount — the sufficiency check
contradicts the deduction three lines below it. -/
theorem C5_insufficient_balance_check_bug :
    (openPosition 0 feed95000 Market.BTC Direction.LONG 50 RiskMode.BALANCED false
        advMarket ⟨20, []⟩).positions.length = 1 ∧
    (openPosition 0 feed95000 Market.BTC Direction.LONG 50 RiskMode.BALANCED false
        advMarket ⟨20, []⟩).balance = -30 := by
  norm_num [openPosition, feed95000, advMarket, mkPosition, resolveLeverage,
    entryFor, leverageMap, JVal.truthy, JVal.toQ, JStr.truthy, parseFloat]

/-- C9: the sufficiency check of `openPosition` compares the balance against
`positionSize / leverage` while the deduction on success is the full
`positionSize` (= riskAmount): for every leverage L > 1 and every balance b
with riskAmount / L ≤ b < riskAmount (a nonempty interval), `openPosition`
succeeds and leaves the strictly negative balance b - riskAmount. -/
theorem C9_check_deduct_mismatch (r L b : ℚ) (hr : 0 < r) (hL : 1 < L)
    (hb₁ : r / L ≤ b) (hb₂ : b < r) :
    r / L < r ∧
    (openPosition 0 feed95000 Market.BTC Direction.LONG r RiskMode.BALANCED true
        ⟨.MARKET, .empty, .numStr L, .empty, .empty⟩ ⟨b, []⟩).positions.length = 1 ∧
    (openPosition 0 feed95000 Market.BTC Direction.LONG r RiskMode.BALANCED true
        ⟨.MARKET, .empty, .numStr L, .empty, .empty⟩ ⟨b, []⟩).balance = b - r ∧
    (openPosition 0 feed95000 Market.BTC Direction.LONG r RiskMode.BALANCED true
        ⟨.MARKET, .empty, .numStr L, .empty, .empty⟩ ⟨b, []⟩).balance < 0 := by
  have hLres : resolveLeverage true ⟨.MARKET, .empty, .numStr L, .empty, .empty⟩
      RiskMode.BALANCED = L := by
    simp [resolveLeverage, parseFloat, JVal.toQ, JStr.truthy]
  have hopen := openPosition_success 0 feed95000 Market.BTC Direction.LONG r
    RiskMode.BALANCED true ⟨.MARKET, .empty, .numStr L, .empty, .empty⟩ ⟨b, []⟩
    (by norm_num [feed95000, JVal.truthy])
    (by rw [hLres]; exact not_lt.2 hb₁)
  refine ⟨div_lt_self hr hL, ?_, ?_, ?_⟩ <;> rw [hopen]
  · simp
  · simpa using sub_neg.2 hb₂

/-- Witness for C9: risk 50, leverage 5, balance 10 = 50/5 — the open
succeeds and the balance ends at -40. -/
theorem C9_witness :
    (50 : ℚ) / 5 < 50 ∧
    (openPosition 0 feed95000 Market.BTC Direction.LONG 50 RiskMode.BALANCED true
        ⟨.MARKET, .empty, .numStr 5, .empty, .empty⟩ ⟨10, []⟩).positions.length = 1 ∧
    (openPosition 0 feed95000 Market.BTC Direction.LONG 50 RiskMode.BALANCED true
        ⟨.MARKET, .empty, .numStr 5, .empty, .empty⟩ ⟨10, []⟩).balance = 10 - 50 ∧
    (openPosition 0 feed95000 Market.BTC Direction.LONG 50 RiskMode.BALANCED true
        ⟨.MARKET, .empty, .numStr 5, .empty, .empty⟩ ⟨10, []⟩).balance < 0 :=
  C9_check_deduct_mismatch 50 5 10 (by norm_num) (by norm_num) (by norm_num) (by norm_num)

/-- A trigger value that is `0` or `NaN` is falsy, hence inert. -/
lemma trigger_not_truthy {v : JVal} (h : v = JVal.nan ∨ v = JVal.num 0) :
    v.truthy = false := by
  rcases h with h | h <;> simp [h, JVal.truthy]

/-- C10: a `takeProfit` or `stopLoss` stored as `0` or `NaN` never fires (the
per-tick checks guard on JS truthiness), so with both triggers inert the tick
can only leave the position OPEN or LIQUIDATED — whatever the price does —
and `openPosition` stores `NaN` for an unparsable (non-empty, non-numeric)
input string. -/
theorem C10_inert_triggers (currentPrice : ℚ) (pos : Position)
    (now : ℕ) (mkt : Market) (e r L : ℚ) (dir : Direction)
    (ot : OrderType) (lp cl : JStr) :
    ((pos.takeProfit = JVal.nan ∨ pos.takeProfit = JVal.num 0) →
      (evalPosition currentPrice pos).status ≠ Status.CLOSED_BY_TP) ∧
    ((pos.stopLoss = JVal.nan ∨ pos.stopLoss = JVal.num 0) →
      (evalPosition currentPrice pos).status ≠ Status.CLOSED_BY_SL) ∧
    ((pos.takeProfit = JVal.nan ∨ pos.takeProfit = JVal.num 0) →
      (pos.stopLoss = JVal.nan ∨ pos.stopLoss = JVal.num 0) →
      (evalPosition currentPrice pos).status = Status.OPEN ∨
        (evalPosition currentPrice pos).status = Status.LIQUIDATED) ∧
    (mkPosition now mkt e dir r L ⟨ot, lp, cl, JStr.junk, JStr.junk⟩).takeProfit
      = JVal.nan ∧
    (mkPosition now mkt e dir r L ⟨ot, lp, cl, JStr.junk, JStr.junk⟩).stopLoss
      = JVal.nan := by
  have htpF : (pos.takeProfit = JVal.nan ∨ pos.takeProfit = JVal.num 0) →
      tpFired currentPrice pos = false := by
    intro h
    simp [tpFired, trigger_not_truthy h]
  have hslF : (pos.stopLoss = JVal.nan ∨ pos.stopLoss = JVal.num 0) →
      slFired currentPrice pos = false := by
    intro h
    simp [slFired, trigger_not_truthy h]
  refine ⟨?_, ?_, ?_, by simp [mkPosition, JStr.truthy, parseFloat],
    by simp [mkPosition, JStr.truthy, parseFloat]⟩
  · intro h hc
    rw [evalPosition_tp_iff] at hc
    rw [htpF h] at hc
    cases hc
  · intro h hc
    obtain ⟨-, hc⟩ := (evalPosition_sl_iff currentPrice pos).1 hc
    rw [hslF h] at hc
    cases hc
  · intro htp hsl
    by_cases hp : posPnl currentPrice pos ≤ -(effRisk pos)
    · exact Or.inr ((evalPosition_liq_iff currentPrice pos).2 ⟨htpF htp, hslF hsl, hp⟩)
    · exact Or.inl ((evalPosition_open_iff currentPrice pos).2 ⟨htpF htp, hslF hsl, hp⟩)

/-- A LONG position whose take profit was entered as the string "0" (stored
as the number 0) and whose stop loss was entered unparsable (stored NaN). -/
def posInert : Position :=
  mkPosition 0 Market.BTC 100 Direction.LONG 50 2
    { orderType := .MARKET, limitPrice := .empty, customLeverage := .empty
      takeProfit := .numStr 0, stopLoss := .junk }

/-- Witness for C10: the inert-trigger position evaluated at price 200 — far
above the stored take-profit level 0 for a LONG — still does not close by TP
or SL. -/
theorem C10_witness :
    (evalPosition 200 posInert).status ≠ Status.CLOSED_BY_TP ∧
    (evalPosition 200 posInert).status = Status.OPEN ∨
      (evalPosition 200 posInert).status = Status.LIQUIDATED := by
  have h := C10_inert_triggers 200 posInert 0 Market.BTC 100 50 2 Direction.LONG
    OrderType.MARKET JStr.empty JStr.empty
  have htp : posInert.takeProfit = JVal.nan ∨ posInert.takeProfit = JVal.num 0 :=
    Or.inr (by simp [posInert, mkPosition, JStr.truthy, parseFloat])
  have hsl : posInert.stopLoss = JVal.nan ∨ posInert.stopLoss = JVal.num 0 :=
    Or.inl (by simp [posInert, mkPosition, JStr.truthy, parseFloat])
  rcases h.2.2.1 htp hsl with ho | hl
  · exact Or.inl ⟨h.1 htp, ho⟩
  · exact Or.inr hl

/-- After filtering out every position with the given id, a search for that
id finds nothing. -/
lemma find?_filter_ne_none (ps : List Position) (pid : ℕ) :
    (ps.filter (fun p => p.id ≠ pid)).find? (fun p => p.id = pid) = none := by
  rw [List.find?_eq_none]
  intro p hp
  have hne := List.of_mem_filter hp
  simp only [decide_eq_true_eq] at hne ⊢
  exact hne

/-- C8: `closePosition` with an id that is not in the open set is a silent
no-op (no balance change, no position change, no error surfaced), and for
every state and every id — in particular after a first close that succeeded
and removed the position — closing the same id a second time equals closing
it once: the second call is a no-op. -/
theorem C8_close_missing_noop (st : EngineState) (pid : ℕ) :
    (pid ∉ st.positions.map (fun p => p.id) → closePosition pid st = st) ∧
    closePosition pid (closePosition pid st) = closePosition pid st := by
  constructor
  · intro h
    have hnone : st.positions.find? (fun p => p.id = pid) = none := by
      rw [List.find?_eq_none]
      intro p hp
      simp only [decide_eq_true_eq]
      intro he
      exact h (List.mem_map.2 ⟨p, hp, he⟩)
    simp [closePosition, hnone]
  · rcases hf : st.positions.find? (fun p => p.id = pid) with _ | q
    · have h0 : closePosition pid st = st := by simp [closePosition, hf]
      rw [h0]
      exact h0
    · have h1 : closePosition pid st =
          ⟨st.balance + q.initialMargin + q.unrealizedPnL,
            st.positions.filter (fun p => p.id ≠ pid)⟩ := by
        simp [closePosition, hf]
      rw [h1]
      simp only [closePosition]
      rw [find?_filter_ne_none]

/-- Witness for C8: closing the absent id 5 on a book holding only id 0
changes nothing, and for id 0 — which is present, so the first close
succeeds, credits the settlement and removes the position — the double close
equals the single close. -/
theorem C8_witness :
    closePosition 5 ⟨1000, [posScenario]⟩ = ⟨1000, [posScenario]⟩ ∧
    closePosition 0 (closePosition 0 ⟨1000, [posScenario]⟩)
      = closePosition 0 ⟨1000, [posScenario]⟩ :=
  ⟨(C8_close_missing_noop ⟨1000, [posScenario]⟩ 5).1
      (by simp [posScenario, mkPosition]),
    (C8_close_missing_noop ⟨1000, [posScenario]⟩ 0).2⟩

/-- The per-position settlement credit, `initialMargin + unrealizedPnL`,
summed over a list of positions. -/
def muSum (ps : List Position) : ℚ :=
  (ps.map (fun p => p.initialMargin + p.unrealizedPnL)).sum

/-- The separate margin and PnL sums of `closeAllPositions` add up to the
per-position settlement sum. -/
lemma sum_margin_add_pnl (ps : List Position) :
    (ps.map (fun p => p.initialMargin)).sum + (ps.map (fun p => p.unrealizedPnL)).sum
      = muSum ps := by
  induction ps with
  | nil => simp [muSum]
  | cons h t ih =>
    simp only [muSum, List.map_cons, List.sum_cons] at ih ⊢
    linarith

/-- Writing `closeAllPositions` in closed form: one credit of the settlement sum and
an empty book. -/
lemma closeAllPositions_eq (st : EngineState) :
    closeAllPositions st = ⟨st.balance + muSum st.positions, []⟩ := by
  unfold closeAllPositions
  congr 1
  rw [add_assoc, sum_margin_add_pnl]

/-- Mapping ids commutes with filtering an id away. -/
lemma map_id_filter (a : ℕ) (ps : List Position) :
    (ps.filter (fun p => p.id ≠ a)).map (fun p => p.id)
      = (ps.map (fun p => p.id)).filter (· != a) := by
  induction ps with
  | nil => rfl
  | cons h t ih =>
    by_cases hh : h.id = a
    · rw [List.filter_cons_of_neg (by simp [hh]), List.map_cons,
        List.filter_cons_of_neg (by simp [hh])]
      exact ih
    · rw [List.filter_cons_of_pos (by simp [hh]), List.map_cons, List.map_cons,
        List.filter_cons_of_pos (by simp [hh]), ih]

/-- When ids are unique, the settlement sum splits into the found position's
credit plus the sum over the book without that id. -/
lemma muSum_split (a : ℕ) :
    ∀ (ps : List Position), (ps.map (fun p => p.id)).Nodup →
    ∀ q : Position, ps.find? (fun p => p.id = a) = some q →
    muSum ps = (q.initialMargin + q.unrealizedPnL)
      + muSum (ps.filter (fun p => p.id ≠ a)) := by
  intro ps
  induction ps with
  | nil => intro _ q hq; simp at hq
  | cons h t ih =>
    intro hnd q hq
    rw [List.map_cons, List.nodup_cons] at hnd
    by_cases hh : h.id = a
    · rw [List.find?_cons_of_pos _ (by simp [hh])] at hq
      injection hq with hq
      subst hq
      have htfil : t.filter (fun p => p.id ≠ a) = t := by
        rw [List.filter_eq_self]
        intro p hp
        simp only [decide_eq_true_eq]
        intro he
        exact hnd.1 (List.mem_map.2 ⟨p, hp, by rw [he, hh]⟩)
      rw [List.filter_cons_of_neg (by simp [hh]), htfil]
      simp [muSum]
    · rw [List.find?_cons_of_neg _ (by simp [hh])] at hq
      rw [List.filter_cons_of_pos (by simp [hh])]
      have := ih hnd.2 q hq
      simp only [muSum, List.map_cons, List.sum_cons] at this ⊢
      linarith

/-- A found close in closed form. -/
lemma closePosition_found (st : EngineState) (a : ℕ) (q : Position)
    (hq : st.positions.find? (fun p => p.id = a) = some q) :
    closePosition a st =
      ⟨st.balance + q.initialMargin + q.unrealizedPnL,
        st.positions.filter (fun p => p.id ≠ a)⟩ := by
  simp [closePosition, hq]

/-- Folding `closePosition` over any permutation of the (unique) ids of the
book credits every position's settlement and empties the book. -/
lemma closeEach_perm_eq :
    ∀ (order : List ℕ) (b : ℚ) (ps : List Position),
    (ps.map (fun p => p.id)).Nodup → order.Perm (ps.map (fun p => p.id)) →
    closeEach order ⟨b, ps⟩ = ⟨b + muSum ps, []⟩ := by
  intro order
  induction order with
  | nil =>
    intro b ps _ hperm
    have hmap : ps.map (fun p => p.id) = [] := hperm.symm.eq_nil
    rw [List.map_eq_nil_iff] at hmap
    subst hmap
    simp [closeEach, muSum]
  | cons a rest ih =>
    intro b ps hnd hperm
    have ha : a ∈ ps.map (fun p => p.id) := hperm.subset (List.mem_cons_self a rest)
    obtain ⟨q, hq⟩ : ∃ q, ps.find? (fun p => p.id = a) = some q := by
      obtain ⟨p₀, hp₀, hid⟩ := List.mem_map.1 ha
      exact Option.isSome_iff_exists.1
        (List.find?_isSome.2 ⟨p₀, hp₀, by simp [hid]⟩)
    have hstep : closeEach (a :: rest) (⟨b, ps⟩ : EngineState)
        = closeEach rest (closePosition a ⟨b, ps⟩) := rfl
    rw [hstep, closePosition_found ⟨b, ps⟩ a q hq]
    have hmapfilter := map_id_filter a ps
    have herase := hnd.erase_eq_filter a
    have hperm' : rest.Perm ((ps.filter (fun p => p.id ≠ a)).map (fun p => p.id)) := by
      rw [hmapfilter, ← herase]
      exact (hperm.trans (List.perm_cons_erase ha)).cons_inv
    have hnd' : ((ps.filter (fun p => p.id ≠ a)).map (fun p => p.id)).Nodup := by
      rw [hmapfilter, ← herase]
      exact hnd.erase a
    rw [ih _ _ hnd' hperm']
    have hsplit := muSum_split a ps hnd q hq
    have : b + q.initialMargin + q.unrealizedPnL
        + muSum (ps.filter (fun p => p.id ≠ a)) = b + muSum ps := by
      rw [hsplit]; ring
    rw [this]

/-- C7: on a book with unique position ids, closing every position one at a
time, in any permutation of the ids, reaches exactly the state of
`closeAllPositions` — same final balance — and both leave the open set
empty. -/
theorem C7_closeAll_order_independent (st : EngineState) (order : List ℕ)
    (hnd : (st.positions.map (fun p => p.id)).Nodup)
    (hperm : order.Perm (st.positions.map (fun p => p.id))) :
    closeEach order st = closeAllPositions st ∧
    (closeEach order st).positions = [] ∧
    (closeAllPositions st).positions = [] := by
  obtain ⟨b, ps⟩ := st
  have h1 := closeEach_perm_eq order b ps hnd hperm
  have h2 := closeAllPositions_eq ⟨b, ps⟩
  refine ⟨?_, ?_, ?_⟩
  · rw [h1, h2]
  · rw [h1]
  · rw [h2]

/-- A second position (id 1, SHORT ETH) for the permutation witness. -/
def posSecond : Position := mkPosition 1 Market.ETH 3500 Direction.SHORT 50 10 advMarket

/-- Witness for C7: a two-position book with ids 0 and 1 closed in the
reversed order [1, 0] ends exactly at the `closeAllPositions` state. -/
theorem C7_witness :
    closeEach [1, 0] ⟨1000, [posScenario, posSecond]⟩
      = closeAllPositions ⟨1000, [posScenario, posSecond]⟩ ∧
    (closeEach [1, 0] (⟨1000, [posScenario, posSecond]⟩ : EngineState)).positions = [] ∧
    (closeAllPositions ⟨1000, [posScenario, posSecond]⟩).positions = [] :=
  C7_closeAll_order_independent ⟨1000, [posScenario, posSecond]⟩ [1, 0]
    (by simp [posScenario, posSecond, mkPosition])
    (by simp only [posScenario, posSecond, mkPosition, List.map_cons, List.map_nil]
        exact List.Perm.swap 0 1 [])

/-- A tick on a one-position book: the position is revalued; if it stays
OPEN nothing settles, otherwise its `initialMargin + unrealizedPnL` is
credited and the book empties. -/
lemma tick_singleton (pricesT : Market → JVal) (b : ℚ) (p : Position)
    (htick : (pricesT Market.BTC).truthy = true) :
    tick pricesT ⟨b, [p]⟩ =
      if (evalPosition (pricesT p.market).toQ p).status = Status.OPEN then
        ⟨b, [evalPosition (pricesT p.market).toQ p]⟩
      else
        ⟨b + ((evalPosition (pricesT p.market).toQ p).initialMargin
          + (evalPosition (pricesT p.market).toQ p).unrealizedPnL), []⟩ := by
  unfold tick
  rw [if_pos ⟨by simp, htick⟩]
  by_cases hst : (evalPosition (pricesT p.market).toQ p).status = Status.OPEN
  · rw [if_pos hst]
    simp [List.filter_cons, hst, settleReturn]
  · rw [if_neg hst]
    simp only [List.map_cons, List.map_nil, List.filter_cons, List.filter_nil]
    have h1 : ((evalPosition (pricesT p.market).toQ p).status ≠ Status.OPEN) := hst
    simp [h1, hst, settleReturn]

/-- C6: a full position lifecycle on an empty book under the margin-reserved
policy: opening deducts `riskAmount`; if the next tick liquidates, the
settlement credits `initialMargin + (-riskAmount) = 0` so the net balance
change is exactly `-riskAmount`; if the tick closes by TP or SL, or the
position stays open and is closed manually, the settlement credits
`initialMargin + pnl` so the net change is exactly the settled pnl.  In all
three cases the position leaves the open set. -/
theorem C6_lifecycle_balance
    (b r : ℚ) (now : ℕ) (prices pricesT : Market → JVal) (mkt : Market)
    (dir : Direction) (riskMode : RiskMode) (showAdv : Bool)
    (adv : AdvancedSettings) (p : Position) (c : ℚ)
    (hprice : (prices mkt).truthy = true)
    (hbal : ¬ b < r / resolveLeverage showAdv adv riskMode)
    (htick : (pricesT Market.BTC).truthy = true)
    (hp : p = mkPosition now mkt (entryFor adv (prices mkt).toQ) dir r
      (resolveLeverage showAdv adv riskMode) adv)
    (hc : c = (pricesT mkt).toQ) :
    ((evalPosition c p).status = Status.LIQUIDATED →
      (tick pricesT (openPosition now prices mkt dir r riskMode showAdv adv
        ⟨b, []⟩)).balance = b - r ∧
      (tick pricesT (openPosition now prices mkt dir r riskMode showAdv adv
        ⟨b, []⟩)).positions = []) ∧
    ((evalPosition c p).status = Status.CLOSED_BY_TP ∨
      (evalPosition c p).status = Status.CLOSED_BY_SL →
      (tick pricesT (openPosition now prices mkt dir r riskMode showAdv adv
        ⟨b, []⟩)).balance = b + posPnl c p ∧
      (tick pricesT (openPosition now prices mkt dir r riskMode showAdv adv
        ⟨b, []⟩)).positions = []) ∧
    ((evalPosition c p).status = Status.OPEN →
      (closePosition p.id (tick pricesT (openPosition now prices mkt dir r riskMode
        showAdv adv ⟨b, []⟩))).balance = b + posPnl c p ∧
      (closePosition p.id (tick pricesT (openPosition now prices mkt dir r riskMode
        showAdv adv ⟨b, []⟩))).positions = []) := by
  have hopen := openPosition_success now prices mkt dir r riskMode showAdv adv
    ⟨b, []⟩ hprice hbal
  rw [hopen]
  have hmkt : p.market = mkt := by rw [hp]; rfl
  have hcm : c = (pricesT p.market).toQ := by rw [hmkt, hc]
  have hmargin : p.initialMargin = r := by rw [hp]; rfl
  have heff : effRisk p = r := by
    rw [hp]
    simp [effRisk, mkPosition]
  have hfields := evalPosition_fields c p
  have hstep : (⟨b, []⟩ : EngineState).balance - r = b - r := rfl
  have hpos : ((⟨b, []⟩ : EngineState).positions ++
      [mkPosition now mkt (entryFor adv (prices mkt).toQ) dir r
        (resolveLeverage showAdv adv riskMode) adv]) = [p] := by
    rw [← hp]; rfl
  have htick1 := tick_singleton pricesT (b - r) p htick
  refine ⟨?_, ?_, ?_⟩
  · intro hL
    have hnotopen : ¬ (evalPosition (pricesT p.market).toQ p).status = Status.OPEN := by
      rw [← hcm, hL]; simp
    have hpnl : (evalPosition c p).unrealizedPnL = -(effRisk p) := by
      rw [evalPosition_pnl, if_pos hL]
    constructor
    · show (tick pricesT ⟨b - r, _⟩).balance = b - r
      rw [hpos, htick1, if_neg hnotopen]
      show b - r + ((evalPosition (pricesT p.market).toQ p).initialMargin
        + (evalPosition (pricesT p.market).toQ p).unrealizedPnL) = b - r
      rw [← hcm, hfields.2.2.2.2.2.2.2.1, hpnl, hmargin, heff]
      ring
    · show (tick pricesT ⟨b - r, _⟩).positions = []
      rw [hpos, htick1, if_neg hnotopen]
  · intro hTS
    have hnotopen : ¬ (evalPosition (pricesT p.market).toQ p).status = Status.OPEN := by
      rw [← hcm]
      rcases hTS with h | h <;> rw [h] <;> simp
    have hnotliq : ¬ (evalPosition c p).status = Status.LIQUIDATED := by
      rcases hTS with h | h <;> rw [h] <;> simp
    have hpnl : (evalPosition c p).unrealizedPnL = posPnl c p := by
      rw [evalPosition_pnl, if_neg hnotliq]
    constructor
    · show (tick pricesT ⟨b - r, _⟩).balance = b + posPnl c p
      rw [hpos, htick1, if_neg hnotopen]
      show b - r + ((evalPosition (pricesT p.market).toQ p).initialMargin
        + (evalPosition (pricesT p.market).toQ p).unrealizedPnL) = b + posPnl c p
      rw [← hcm, hfields.2.2.2.2.2.2.2.1, hpnl, hmargin]
      ring
    · show (tick pricesT ⟨b - r, _⟩).positions = []
      rw [hpos, htick1, if_neg hnotopen]
  · intro hO
    have hisopen : (evalPosition (pricesT p.market).toQ p).status = Status.OPEN := by
      rw [← hcm]; exact hO
    have hnotliq : ¬ (evalPosition c p).status = Status.LIQUIDATED := by
      rw [hO]; simp
    have hpnl : (evalPosition c p).unrealizedPnL = posPnl c p := by
      rw [evalPosition_pnl, if_neg hnotliq]
    have htick2 : tick pricesT ⟨b - r, [p]⟩ = ⟨b - r, [evalPosition c p]⟩ := by
      rw [htick1, if_pos hisopen, ← hcm]
    have hfind : ([evalPosition c p].find? (fun q => q.id = p.id))
        = some (evalPosition c p) := by
      rw [List.find?_cons_of_pos _ (by simp [hfields.1])]
    have hclose := closePosition_found ⟨b - r, [evalPosition c p]⟩ p.id
      (evalPosition c p) hfind
    constructor
    · show (closePosition p.id (tick pricesT ⟨b - r, _⟩)).balance = b + posPnl c p
      rw [hpos, htick2, hclose]
      show b - r + (evalPosition c p).initialMargin
        + (evalPosition c p).unrealizedPnL = b + posPnl c p
      rw [hfields.2.2.2.2.2.2.2.1, hpnl, hmargin]
      ring
    · show (closePosition p.id (tick pricesT ⟨b - r, _⟩)).positions = []
      rw [hpos, htick2, hclose]
      show ([evalPosition c p].filter (fun q => q.id ≠ p.id)) = []
      rw [List.filter_cons_of_neg (by simp [hfields.1]), List.filter_nil]

/-- A price feed quoting 76000 on every market (the liquidation tick of the
spec's scenario). -/
def feed76000 : Market → JVal := fun _ => JVal.num 76000

/-- Witness for C6: the spec's scenario — open LONG BTC risk 50 at 95000 on
balance 1000, liquidate at 76000; the final balance is 1000 - 50 = 950 and
the book is empty. -/
theorem C6_witness :
    (tick feed76000 (openPosition 0 feed95000 Market.BTC Direction.LONG 50
      RiskMode.BALANCED false advMarket ⟨1000, []⟩)).balance = 1000 - 50 ∧
    (tick feed76000 (openPosition 0 feed95000 Market.BTC Direction.LONG 50
      RiskMode.BALANCED false advMarket ⟨1000, []⟩)).positions = [] :=
  (C6_lifecycle_balance 1000 50 0 feed95000 feed76000 Market.BTC Direction.LONG
    RiskMode.BALANCED false advMarket posScenario 76000
    (by norm_num [feed95000, JVal.truthy])
    (by norm_num [resolveLeverage, advMarket, JStr.truthy, leverageMap])
    (by norm_num [feed76000, JVal.truthy])
    (by norm_num [posScenario, entryFor, resolveLeverage, advMarket, feed95000,
      JVal.toQ, JStr.truthy, leverageMap, parseFloat])
    (by norm_num [feed76000, JVal.toQ])).1
    (by norm_num [evalPosition, posScenario, mkPosition, posPnl, tpFired, slFired,
      dirMult, JVal.truthy, JVal.toQ, JStr.truthy, parseFloat, effRisk, advMarket])

end PerpsX
